import Mathlib

/-!
Verification of the transformation-lineage tracker (`src/transformlineagemonad.py`)
of the `ztools` repository against its natural-language specification.

The tracker (`TransformLineageMonad`) records a stack of 4x4 affine-transform
deltas applied to a solid, keeps a cached composed origin, and supports scoped
auto-undo.  The matrix algebra itself (`multmatrix` / `divmatrix`) lives in the
external `openscad` geometry engine and is not part of the repository; it is
modelled here from the specification.  Invertible affine transforms in exact
arithmetic form a group, so the embedding is parameterised by an arbitrary
group `G`; concrete instantiations in witnesses use `DihedralGroup 3`, a small
computable noncommutative group standing in for noncommuting 4x4 matrices.
-/

namespace ZTools

/-- A solid of the external geometry engine, as seen by the tracker: the
tracker only ever reads the solid's reported frame (`origin`) and applies
inverse transforms to it.  The geometry itself is opaque; we keep an opaque
tag `geom` so that distinct solids may share a frame. -/
structure Solid (G : Type) where
  origin : G
  geom : Nat
  deriving DecidableEq, Repr

variable {G : Type} [Group G]

/-- Modelled from the spec: the engine's transform-composition operation
(`compose` in spec section 4.1, `multmatrix` in the source).  The spec defers
the operand ordering to the geometry engine ("must match whatever ordering the
geometry engine uses"); we use `multmatrix a b = b * a` — apply transform `b`
to frame `a` — the ordering under which `divmatrix` undoes `multmatrix`, as
required by spec section 4.2 ("equivalently: compose with the inverse"). -/
def multmatrix (a b : G) : G := b * a

/-- Modelled from the spec: the engine's inverse-composition operation
(`decompose` in spec section 4.1, `divmatrix` in the source): composition with
the inverse of the second argument, so that `divmatrix (multmatrix a b) b = a`
("divmatrix would undo the operation", per the repository's own example). -/
def divmatrix (a b : G) : G := b⁻¹ * a

/-- Modelled from the spec: `solid.divmatrix(m)` applies the inverse of the
transform `m` to the solid, so its reported frame becomes `divmatrix` of the
old frame.  The opaque geometry tag is unchanged. -/
def Solid.divmatrix (s : Solid G) (e : G) : Solid G :=
  ⟨ZTools.divmatrix s.origin e, s.geom⟩

/-- The tracker state: `solid`, `combined_origin`, `transformation_stack`
(push/pop at the tail, as for a Python list) and the private scoped-block
checkpoint `__checkpoint` (dataclass default `1`).
Embeds the fields of `TransformLineageMonad`. -/
structure TransformLineageMonad (G : Type) where
  solid : Solid G
  combined_origin : G
  transformation_stack : List G
  checkpoint : Nat
  deriving DecidableEq, Repr

/-- Construction from an initial solid with no explicit `combined_origin` /
`transformation_stack` supplied as genuinely empty lists, after
`__post_init__` has run: both falsy checks fire, seeding
`combined_origin := solid.origin` and `transformation_stack := [solid.origin]`.
(The dataclass *default* path is modelled separately below for claim C5: its
`default_factory = lambda : list` slip yields the truthy `list` class and
seeds nothing.) -/
def create (s : Solid G) : TransformLineageMonad G :=
  ⟨s, s.origin, [s.origin], 1⟩

/-- Errors of the tracker, named as in the specification's error taxonomy
(section 7).  `emptyLineage` models the `IndexError('transformation stack is
empty ...')` raised by `undo_mutably`; `invalidOpResult` models the
`TypeError` / `IndexError` / `AttributeError` raised inside `apply_mutably`
when the operation's return value matches none of the recognised shapes. -/
inductive TError where
  | emptyLineage
  | invalidOpResult
  deriving DecidableEq, Repr

/-- A Python value as far as the tracker's structural matching can tell:
either a solid (`isinstance(x, Openscad)` succeeds) or some other value
(opaque, tagged by a number). -/
inductive PyVal (G : Type) where
  | solidV (s : Solid G)
  | otherV (n : Nat)
  deriving DecidableEq, Repr

/-- The possible return values of a `transform_func`, as discriminated by
`apply_mutably`'s structural matching:
a bare solid; a `ResultWithDelta` payload (whose `delta_transform_matrix`
is `some d` for a genuine — hence non-empty, hence truthy — matrix and `none`
for a falsy value such as the empty list); a subscriptable sequence; or a
non-subscriptable value (`post_transform[0]` raises `TypeError`). -/
inductive OpResult (G : Type) where
  | bare (s : Solid G)
  | withDelta (s : Solid G) (delta : Option G) (results : List (PyVal G))
  | seqR (xs : List (PyVal G))
  | nonSeq (n : Nat)

/-- The second component of `apply_mutably`'s returned pair
(`return self, post_transform`): the bare solid itself in the native case,
otherwise a list of values. -/
inductive AuxOut (G : Type) where
  | single (v : PyVal G)
  | many (vs : List (PyVal G))
  deriving DecidableEq, Repr

/-- Push one delta: `transformation_stack.append(delta)`,
`combined_origin = multmatrix(combined_origin, delta)`, `solid = replacement`
(lines 113-115 of the source). -/
def pushDelta (t : TransformLineageMonad G) (repl : Solid G) (delta : G) :
    TransformLineageMonad G :=
  ⟨repl, multmatrix t.combined_origin delta,
    t.transformation_stack ++ [delta], t.checkpoint⟩

/-- Embeds `apply_mutably`.  Structural matching on the operation's result:
a bare `Openscad`, a `ResultWithDelta` (whose falsy — `none` — override is
ignored in favour of the inferred delta, line 111), or `post_transform[0]`.
The inferred delta is `__component_matrix`:
`divmatrix(replacement.origin, combined_origin)`.  Shapes on which the Python
code raises before reaching the mutation lines 113-115 return an error and
leave the tracker unmutated. -/
def apply_mutably (t : TransformLineageMonad G)
    (transform_func : Solid G → OpResult G) :
    Except TError (TransformLineageMonad G × AuxOut G) :=
  match transform_func t.solid with
  | .bare s =>
      .ok (pushDelta t s (divmatrix s.origin t.combined_origin),
        .single (.solidV s))
  | .withDelta s od results =>
      let delta :=
        match od with
        | some d => d
        | none => divmatrix s.origin t.combined_origin
      .ok (pushDelta t s delta, .many results)
  | .seqR [] => .error .invalidOpResult
  | .seqR (.otherV _ :: _) => .error .invalidOpResult
  | .seqR (.solidV s :: rest) =>
      .ok (pushDelta t s (divmatrix s.origin t.combined_origin),
        .many (.solidV s :: rest))
  | .nonSeq _ => .error .invalidOpResult

/-- Embeds `undo_mutably`: raise on an empty stack, otherwise pop the most
recent delta `evict`, set `combined_origin = divmatrix(combined_origin,
evict)` and `solid = solid.divmatrix(evict)`. -/
def undo_mutably (t : TransformLineageMonad G) :
    Except TError (TransformLineageMonad G) :=
  match t.transformation_stack.getLast? with
  | none => .error .emptyLineage
  | some evict =>
      .ok ⟨t.solid.divmatrix evict,
        divmatrix t.combined_origin evict,
        t.transformation_stack.dropLast, t.checkpoint⟩

/-- `n` successive calls to `undo_mutably`, stopping at the first error
(`for _ in range(count): self.undo_mutably()`). -/
def undoN (t : TransformLineageMonad G) :
    Nat → Except TError (TransformLineageMonad G)
  | 0 => .ok t
  | n + 1 =>
      match undo_mutably t with
      | .error e => .error e
      | .ok t1 => undoN t1 n

/-- Embeds `clone`: deep copy of stack and combined origin, same solid
reference, passed through the dataclass constructor
(`TransformLineageMonad(self.solid, new_origin, new_stack)`) — so
`__post_init__` runs on the new instance: the copied `combined_origin` is an
actual matrix (a non-empty list, always truthy) and is kept, but a copied
*empty* stack is falsy and is reseeded with `[solid.origin]`, while the
stale `combined_origin` is kept.  The private `__checkpoint` is not passed
on, so the clone gets the dataclass default `1`. -/
def clone (t : TransformLineageMonad G) : TransformLineageMonad G :=
  ⟨t.solid, t.combined_origin,
    match t.transformation_stack with
    | [] => [t.solid.origin]
    | d :: l => d :: l, 1⟩

/-- Embeds `__enter__`: record the current stack depth as the checkpoint. -/
def scopeEnter (t : TransformLineageMonad G) : TransformLineageMonad G :=
  { t with checkpoint := t.transformation_stack.length }

/-- Embeds `__exit__`.  `abnormal = true` models a non-`None` exception
triple: no unwind is performed and `False` is returned, so the exception
propagates to the caller.  On a normal exit the unwind count is
`len(transformation_stack) - __checkpoint`; Python's `range` of a negative
number is empty, which truncated `Nat` subtraction models exactly.  The
returned `Bool` is `__exit__`'s return value. -/
def scopeExit (t : TransformLineageMonad G) (abnormal : Bool) :
    Except TError (TransformLineageMonad G) × Bool :=
  if abnormal then (.ok t, false)
  else (undoN t (t.transformation_stack.length - t.checkpoint), true)

/-- Run a list of operations through `apply_mutably`, discarding the
auxiliary outputs, stopping at the first error. -/
def applyList (t : TransformLineageMonad G) :
    List (Solid G → OpResult G) → Except TError (TransformLineageMonad G)
  | [] => .ok t
  | f :: fs =>
      match apply_mutably t f with
      | .error e => .error e
      | .ok p => applyList p.1 fs

/-- The left-to-right product of the deltas on a stack:
`compose(compose(...compose(identity, stack[0]), stack[1])..., stack[n-1])`
with the engine's composition. -/
def composedOfStack (l : List G) : G := l.foldl multmatrix 1

/-- The Python value held in the `combined_origin` dataclass field before and
after `__post_init__`: the builtin `list` class itself (what the slipped
default `field(default_factory = lambda : list)` produces — a truthy object),
an empty list (falsy), or an actual matrix (a non-empty list of rows, always
truthy). -/
inductive MatrixField (G : Type) where
  | listClass
  | emptyList
  | mat (g : G)
  deriving DecidableEq, Repr

/-- The Python value held in the `transformation_stack` dataclass field:
the builtin `list` class itself (truthy), or an actual list of matrices
(falsy exactly when empty). -/
inductive StackField (G : Type) where
  | listClass
  | stackVal (l : List G)
  deriving DecidableEq, Repr

/-- Embeds the `combined_origin` arm of `__post_init__`:
`if not self.combined_origin: self.combined_origin = self.solid.origin`.
Only a falsy value (the empty list) is replaced by the solid's reported
frame; the truthy `list` class object passes through untouched. -/
def postInitCombined (s : Solid G) : MatrixField G → MatrixField G
  | .listClass => .listClass
  | .emptyList => .mat s.origin
  | .mat g => .mat g

/-- Embeds the `transformation_stack` arm of `__post_init__`:
`if not self.transformation_stack:
self.transformation_stack.append(self.solid.origin)`. -/
def postInitStack (s : Solid G) : StackField G → StackField G
  | .listClass => .listClass
  | .stackVal [] => .stackVal [s.origin]
  | .stackVal (d :: l) => .stackVal (d :: l)

/-- The two fields of `TransformLineageMonad(solid)` constructed with no
explicit `combined_origin` / `transformation_stack`, after `__post_init__`:
each dataclass default is `field(default_factory = lambda : list)`, and that
factory returns the builtin `list` class itself, not an empty list. -/
def defaultedFields (s : Solid G) : MatrixField G × StackField G :=
  (postInitCombined s .listClass, postInitStack s .listClass)

/-- Tracker states reachable from construction by the mutations claim C1
quantifies over: successful calls to `apply_mutably` / `undo_mutably`
("every call to apply_mutably or undo_mutably, starting from construction"),
plus scoped-block entry (which only records the checkpoint) and normal or
abnormal exit (whose unwind is itself a chain of `undo_mutably` calls).
`clone` is deliberately *not* included: it creates a new tracker outside the
claimed construction path, and its `__post_init__` reseeding of an emptied
stack breaks the composed-origin invariant — see
`clone_reseeding_breaks_invariant` below. -/
inductive Reachable : TransformLineageMonad G → Prop where
  | create (s : Solid G) : Reachable (ZTools.create s)
  | apply {t t' : TransformLineageMonad G} {f : Solid G → OpResult G}
      {aux : AuxOut G} :
      Reachable t → apply_mutably t f = .ok (t', aux) → Reachable t'
  | undo {t t' : TransformLineageMonad G} :
      Reachable t → undo_mutably t = .ok t' → Reachable t'
  | scope_enter {t : TransformLineageMonad G} :
      Reachable t → Reachable (scopeEnter t)
  | scope_exit {t t' : TransformLineageMonad G} {ab b : Bool} :
      Reachable t → scopeExit t ab = (.ok t', b) → Reachable t'

/-! ### Helper lemmas -/

theorem composedOfStack_concat (l : List G) (d : G) :
    composedOfStack (l ++ [d]) = multmatrix (composedOfStack l) d := by
  simp [composedOfStack, List.foldl_append]

theorem apply_mutably_shape {t t' : TransformLineageMonad G}
    {f : Solid G → OpResult G} {aux : AuxOut G}
    (h : apply_mutably t f = .ok (t', aux)) :
    ∃ s d, t' = pushDelta t s d := by
  unfold apply_mutably at h
  cases hf : f t.solid with
  | bare s =>
      rw [hf] at h
      simp only [Except.ok.injEq, Prod.mk.injEq] at h
      exact ⟨s, _, h.1.symm⟩
  | withDelta s od results =>
      rw [hf] at h
      cases od with
      | some d =>
          simp only [Except.ok.injEq, Prod.mk.injEq] at h
          exact ⟨s, d, h.1.symm⟩
      | none =>
          simp only [Except.ok.injEq, Prod.mk.injEq] at h
          exact ⟨s, _, h.1.symm⟩
  | seqR xs =>
      rw [hf] at h
      match xs with
      | [] => exact absurd h (by simp)
      | .otherV m :: rest => exact absurd h (by simp)
      | .solidV s :: rest =>
          simp only [Except.ok.injEq, Prod.mk.injEq] at h
          exact ⟨s, _, h.1.symm⟩
  | nonSeq k =>
      rw [hf] at h
      exact absurd h (by simp)

theorem undo_mutably_concat (t : TransformLineageMonad G) (l : List G) (d : G)
    (h : t.transformation_stack = l ++ [d]) :
    undo_mutably t =
      .ok ⟨t.solid.divmatrix d, divmatrix t.combined_origin d, l,
        t.checkpoint⟩ := by
  unfold undo_mutably
  rw [h, List.getLast?_concat, List.dropLast_concat]

theorem undo_mutably_pushDelta (t : TransformLineageMonad G) (s : Solid G)
    (d : G) :
    undo_mutably (pushDelta t s d) =
      .ok ⟨s.divmatrix d, t.combined_origin, t.transformation_stack,
        t.checkpoint⟩ := by
  rw [undo_mutably_concat (pushDelta t s d) t.transformation_stack d rfl]
  simp [pushDelta, divmatrix, multmatrix, inv_mul_cancel_left]

theorem undoN_succ_eq (t : TransformLineageMonad G) (n : Nat) :
    undoN t (n + 1) = (undoN t n).bind undo_mutably := by
  induction n generalizing t with
  | zero =>
      cases h : undo_mutably t <;> simp [undoN, h, Except.bind]
  | succ n ih =>
      cases h : undo_mutably t with
      | error e =>
          simp only [undoN, h, Except.bind]
      | ok t1 =>
          have h2 : undoN t (n + 2) = undoN t1 (n + 1) := by
            simp only [undoN, h]
          have h3 : undoN t (n + 1) = undoN t1 n := by
            simp only [undoN, h]
          rw [h2, h3, ih]

theorem pushDelta_inv {t : TransformLineageMonad G} (s : Solid G) (d : G)
    (h : t.combined_origin = composedOfStack t.transformation_stack) :
    (pushDelta t s d).combined_origin =
      composedOfStack (pushDelta t s d).transformation_stack := by
  simp [pushDelta, composedOfStack_concat, h]

theorem apply_mutably_inv {t t' : TransformLineageMonad G}
    {f : Solid G → OpResult G} {aux : AuxOut G}
    (h : t.combined_origin = composedOfStack t.transformation_stack)
    (ha : apply_mutably t f = .ok (t', aux)) :
    t'.combined_origin = composedOfStack t'.transformation_stack := by
  obtain ⟨s, d, rfl⟩ := apply_mutably_shape ha
  exact pushDelta_inv s d h

theorem undo_mutably_inv {t t' : TransformLineageMonad G}
    (h : t.combined_origin = composedOfStack t.transformation_stack)
    (hu : undo_mutably t = .ok t') :
    t'.combined_origin = composedOfStack t'.transformation_stack := by
  rcases List.eq_nil_or_concat t.transformation_stack with hnil | ⟨l, d, hc⟩
  · rw [undo_mutably, hnil] at hu
    exact absurd hu (by simp)
  · rw [List.concat_eq_append] at hc
    rw [undo_mutably_concat t l d hc] at hu
    cases hu
    rw [h, hc, composedOfStack_concat]
    simp [divmatrix, multmatrix, inv_mul_cancel_left]

theorem undoN_inv {t t' : TransformLineageMonad G} {n : Nat}
    (h : t.combined_origin = composedOfStack t.transformation_stack)
    (hu : undoN t n = .ok t') :
    t'.combined_origin = composedOfStack t'.transformation_stack := by
  induction n generalizing t with
  | zero =>
      rw [undoN] at hu
      cases hu
      exact h
  | succ n ih =>
      rw [undoN] at hu
      cases h1 : undo_mutably t with
      | error e => rw [h1] at hu; exact absurd hu (by simp)
      | ok t1 =>
          rw [h1] at hu
          exact ih (undo_mutably_inv h h1) hu

theorem scopeExit_inv {t t' : TransformLineageMonad G} {ab b : Bool}
    (h : t.combined_origin = composedOfStack t.transformation_stack)
    (hx : scopeExit t ab = (.ok t', b)) :
    t'.combined_origin = composedOfStack t'.transformation_stack := by
  cases ab with
  | true =>
      have he : scopeExit t true = ((.ok t : Except TError _), false) := rfl
      rw [he] at hx
      cases hx
      exact h
  | false =>
      have he : scopeExit t false =
          (undoN t (t.transformation_stack.length - t.checkpoint), true) := rfl
      rw [he] at hx
      exact undoN_inv h (congrArg Prod.fst hx)

/-- Claim C1: Composed-origin consistency invariant: after every mutation of a
tracker (every successful call to `apply_mutably` or `undo_mutably`,
starting from construction, including those performed by scoped-block
entry and exit), `combined_origin` equals the left-to-right product
`compose(compose(...compose(identity, stack[0]), stack[1])..., stack[n-1])`
of the deltas currently on `transformation_stack`, computed independently
from the stack contents (`composedOfStack`).  The quantification
(`Reachable`) covers exactly the mutations the claim names; `clone`, which
creates a separate tracker and whose rerun of `__post_init__` can reseed an
emptied stack against a stale cache, is outside it (see
`clone_reseeding_breaks_invariant`). -/
theorem composed_origin_consistency {t : TransformLineageMonad G}
    (h : Reachable t) :
    t.combined_origin = composedOfStack t.transformation_stack := by
  induction h with
  | create s => simp [create, composedOfStack, multmatrix]
  | apply _ ha ih => exact apply_mutably_inv ih ha
  | undo _ hu ih => exact undo_mutably_inv ih hu
  | scope_enter _ ih => exact ih
  | scope_exit _ hx ih => exact scopeExit_inv ih hx

/-- Witness for C1 at a concrete reachable state of `DihedralGroup 3`:
construction from a solid framed at `sr 0` followed by one successful
`apply_mutably` of a bare-result operation returning a solid framed at
`r 1`. -/
theorem composed_origin_consistency_witness :
    (⟨⟨DihedralGroup.r 1, 1⟩, DihedralGroup.r 2,
        [DihedralGroup.sr 0, DihedralGroup.sr 1], 1⟩ :
      TransformLineageMonad (DihedralGroup 3)).combined_origin =
      composedOfStack [DihedralGroup.sr 0, DihedralGroup.sr 1] :=
  composed_origin_consistency
    (Reachable.apply (Reachable.create ⟨DihedralGroup.sr 0, 0⟩)
      (show apply_mutably (create ⟨DihedralGroup.sr 0, 0⟩)
          (fun _ => OpResult.bare ⟨DihedralGroup.r 1, 1⟩) =
        Except.ok (⟨⟨DihedralGroup.r 1, 1⟩, DihedralGroup.r 2,
            [DihedralGroup.sr 0, DihedralGroup.sr 1], 1⟩,
          AuxOut.single (PyVal.solidV ⟨DihedralGroup.r 1, 1⟩)) from rfl))

/-- Why claim C1's quantification stops at the mutations the claim names:
`clone` reruns `__post_init__` on the new instance, and cloning a tracker
whose stack has been emptied by undos reseeds the clone's stack with
`[solid.origin]` while keeping the stale `combined_origin`, so the *cloned*
tracker does not satisfy the composed-origin invariant.  Concretely, two
undos from the after-one-apply state
`⟨⟨r 1, 1⟩, r 2, [sr 0, sr 1], 1⟩` (reached by `create ⟨sr 0, 0⟩` followed
by one bare apply, as in the C1 witness) empty the stack and leave
`combined_origin = r 0 = 1`; the clone of that state has stack `[r 2]` but
`combined_origin` still `r 0`, and `r 0 ≠ composedOfStack [r 2]`. -/
theorem clone_reseeding_breaks_invariant :
    undoN (⟨⟨DihedralGroup.r 1, 1⟩, DihedralGroup.r 2,
          [DihedralGroup.sr 0, DihedralGroup.sr 1], 1⟩ :
        TransformLineageMonad (DihedralGroup 3)) 2 =
      .ok ⟨⟨DihedralGroup.r 2, 1⟩, DihedralGroup.r 0, [], 1⟩
    ∧ clone (⟨⟨DihedralGroup.r 2, 1⟩, DihedralGroup.r 0, [], 1⟩ :
        TransformLineageMonad (DihedralGroup 3)) =
      ⟨⟨DihedralGroup.r 2, 1⟩, DihedralGroup.r 0, [DihedralGroup.r 2], 1⟩
    ∧ (clone (⟨⟨DihedralGroup.r 2, 1⟩, DihedralGroup.r 0, [], 1⟩ :
          TransformLineageMonad (DihedralGroup 3))).combined_origin ≠
        composedOfStack (clone (⟨⟨DihedralGroup.r 2, 1⟩, DihedralGroup.r 0,
          [], 1⟩ :
            TransformLineageMonad
              (DihedralGroup 3))).transformation_stack :=
  ⟨by rfl, by rfl, by decide⟩

/-- Claim C2 (amended): Round-trip: for every tracker and every sequence of `n`
successful calls to `apply_mutably` followed by exactly `n` calls to
`undo_mutably`, the undos all succeed and the tracker's `combined_origin`,
`transformation_stack` and checkpoint equal their values before the sequence
began, exactly, in the exact-arithmetic model.  (The current solid's frame is
*not* restored in general — see the counterexample
`solid_frame_roundtrip_cex`; it is restored only when each recorded delta
actually relates the consecutive solid frames.) -/
theorem apply_undo_roundtrip {fs : List (Solid G → OpResult G)}
    {t t' : TransformLineageMonad G}
    (h : applyList t fs = .ok t') :
    ∃ s, undoN t' fs.length =
      .ok ⟨s, t.combined_origin, t.transformation_stack, t.checkpoint⟩ := by
  induction fs generalizing t with
  | nil =>
      rw [applyList] at h
      injection h with h
      subst h
      exact ⟨t.solid, rfl⟩
  | cons f fs ih =>
      rw [applyList] at h
      cases hap : apply_mutably t f with
      | error e => rw [hap] at h; exact absurd h (by simp)
      | ok p =>
          rw [hap] at h
          obtain ⟨s, d, hpd⟩ :=
            @apply_mutably_shape G _ t p.1 f p.2 (by rw [hap])
          obtain ⟨s1, hN⟩ := ih h
          refine ⟨s1.divmatrix d, ?_⟩
          rw [List.length_cons, undoN_succ_eq, hN]
          show undo_mutably ⟨s1, p.1.combined_origin, p.1.transformation_stack,
            p.1.checkpoint⟩ = _
          rw [hpd]
          show undo_mutably
            ⟨s1, multmatrix t.combined_origin d,
              t.transformation_stack ++ [d], t.checkpoint⟩ = _
          rw [undo_mutably_concat _ t.transformation_stack d rfl]
          simp [divmatrix, multmatrix, inv_mul_cancel_left]

/-- Witness for C2 (amended) over `DihedralGroup 3`: one bare apply starting
from a solid framed at `sr 0`, followed by one undo; `combined_origin` and
the stack return exactly to their initial values. -/
theorem apply_undo_roundtrip_witness :
    ∃ s, undoN
        (⟨⟨DihedralGroup.r 1, 1⟩, DihedralGroup.r 2,
            [DihedralGroup.sr 0, DihedralGroup.sr 1], 1⟩ :
          TransformLineageMonad (DihedralGroup 3)) 1 =
      .ok ⟨s, DihedralGroup.sr 0, [DihedralGroup.sr 0], 1⟩ :=
  apply_undo_roundtrip
    (show applyList (create ⟨DihedralGroup.sr 0, 0⟩)
        [fun _ => OpResult.bare ⟨DihedralGroup.r 1, 1⟩] =
      Except.ok ⟨⟨DihedralGroup.r 1, 1⟩, DihedralGroup.r 2,
        [DihedralGroup.sr 0, DihedralGroup.sr 1], 1⟩ by rfl)

/-- Counterexample refuting C2 as stated: over the (noncommutative) group
`DihedralGroup 3`, standing in for noncommuting 4x4 transforms, one bare
`apply_mutably` followed by one `undo_mutably` returns `combined_origin` and
the stack to their initial values but leaves the current solid's frame at
`sr 2`, not the initial `sr 0`: the inferred delta
`divmatrix(replacement.origin, combined_origin)` does not relate the two
solid frames, so un-applying it does not restore the frame. -/
theorem solid_frame_roundtrip_cex :
    applyList (create (⟨DihedralGroup.sr 0, 0⟩ : Solid (DihedralGroup 3)))
        [fun _ => OpResult.bare ⟨DihedralGroup.r 1, 1⟩] =
      .ok ⟨⟨DihedralGroup.r 1, 1⟩, DihedralGroup.r 2,
        [DihedralGroup.sr 0, DihedralGroup.sr 1], 1⟩
    ∧ undoN
        (⟨⟨DihedralGroup.r 1, 1⟩, DihedralGroup.r 2,
            [DihedralGroup.sr 0, DihedralGroup.sr 1], 1⟩ :
          TransformLineageMonad (DihedralGroup 3)) 1 =
      .ok ⟨⟨DihedralGroup.sr 2, 1⟩, DihedralGroup.sr 0,
        [DihedralGroup.sr 0], 1⟩
    ∧ (⟨DihedralGroup.sr 2, 1⟩ : Solid (DihedralGroup 3)).origin ≠
        (create (⟨DihedralGroup.sr 0, 0⟩ :
          Solid (DihedralGroup 3))).solid.origin :=
  ⟨rfl, rfl, by decide⟩

theorem applyList_stats {fs : List (Solid G → OpResult G)}
    {t t' : TransformLineageMonad G}
    (h : applyList t fs = .ok t') :
    t'.transformation_stack.length =
      t.transformation_stack.length + fs.length ∧
    t'.checkpoint = t.checkpoint := by
  induction fs generalizing t with
  | nil =>
      rw [applyList] at h
      injection h with h
      subst h
      exact ⟨rfl, rfl⟩
  | cons f fs ih =>
      rw [applyList] at h
      cases hap : apply_mutably t f with
      | error e => rw [hap] at h; exact absurd h (by simp)
      | ok p =>
          rw [hap] at h
          obtain ⟨s, d, hpd⟩ :=
            @apply_mutably_shape G _ t p.1 f p.2 (by rw [hap])
          obtain ⟨h1, h2⟩ := ih h
          rw [h1, h2, hpd]
          simp [pushDelta]
          omega

theorem undoN_of_le {n : Nat} {t : TransformLineageMonad G}
    (h : n ≤ t.transformation_stack.length) :
    ∃ t', undoN t n = .ok t' ∧
      t'.transformation_stack.length = t.transformation_stack.length - n ∧
      t'.checkpoint = t.checkpoint := by
  induction n generalizing t with
  | zero => exact ⟨t, rfl, rfl, rfl⟩
  | succ n ih =>
      rcases List.eq_nil_or_concat t.transformation_stack with hnil | ⟨l, d, hc⟩
      · rw [hnil] at h
        exact absurd h (by simp)
      · rw [List.concat_eq_append] at hc
        have hu := undo_mutably_concat t l d hc
        have hlen : l.length + 1 = t.transformation_stack.length := by
          rw [hc]; simp
        have hle : n ≤ l.length := by omega
        obtain ⟨t', h1, h2, h3⟩ :=
          ih (t := ⟨t.solid.divmatrix d, divmatrix t.combined_origin d, l,
            t.checkpoint⟩) hle
        refine ⟨t', ?_, ?_, h3⟩
        · rw [undoN, hu]
          exact h1
        · rw [h2]
          simp only
          omega

/-- Claim C3: Scoped-block stack-depth behaviour: entering a scoped block
records the stack depth as the checkpoint; after `n` successful
`apply_mutably` calls inside the block the stack has grown by exactly `n`;
a normal exit (`scopeExit _ false`) pops exactly `n` entries, returning the
stack length to the checkpoint, while an abnormal exit (`scopeExit _ true`,
an error raised inside the block) performs no unwind at all — it returns the
tracker exactly as last mutated (solid, `combined_origin` and stack length
`checkpoint + n` untouched) together with `False`, so the error propagates
to the block's caller. -/
theorem scoped_stack_depth {fs : List (Solid G → OpResult G)}
    {t t' : TransformLineageMonad G}
    (h : applyList (scopeEnter t) fs = .ok t') :
    t'.transformation_stack.length =
      t.transformation_stack.length + fs.length
    ∧ (∃ t2, scopeExit t' false = (.ok t2, true) ∧
        t2.transformation_stack.length = t.transformation_stack.length)
    ∧ scopeExit t' true = (.ok t', false) := by
  obtain ⟨h1, h2⟩ := applyList_stats h
  have hlen : t'.transformation_stack.length =
      t.transformation_stack.length + fs.length := by
    rw [h1]; rfl
  have hcp : t'.checkpoint = t.transformation_stack.length := by
    rw [h2]; rfl
  refine ⟨hlen, ?_, rfl⟩
  have hcount : t'.transformation_stack.length - t'.checkpoint = fs.length := by
    omega
  obtain ⟨t2, hu, hl2, _⟩ :=
    undoN_of_le (t := t') (n := fs.length) (by omega)
  refine ⟨t2, ?_, by omega⟩
  have he : scopeExit t' false =
      (undoN t' (t'.transformation_stack.length - t'.checkpoint), true) := rfl
  rw [he, hcount, hu]

/-- Witness for C3 over `DihedralGroup 3`: enter a scoped block on a freshly
created tracker, apply one bare operation inside it; normal exit restores the
stack to length 1, abnormal exit leaves the applied state and returns
`False`. -/
theorem scoped_stack_depth_witness :
    ((⟨⟨DihedralGroup.r 1, 1⟩, DihedralGroup.r 2,
          [DihedralGroup.sr 0, DihedralGroup.sr 1], 1⟩ :
        TransformLineageMonad
          (DihedralGroup 3)).transformation_stack.length = 1 + 1)
    ∧ (∃ t2, scopeExit
          (⟨⟨DihedralGroup.r 1, 1⟩, DihedralGroup.r 2,
              [DihedralGroup.sr 0, DihedralGroup.sr 1], 1⟩ :
            TransformLineageMonad (DihedralGroup 3)) false =
          (.ok t2, true) ∧ t2.transformation_stack.length = 1)
    ∧ scopeExit
        (⟨⟨DihedralGroup.r 1, 1⟩, DihedralGroup.r 2,
            [DihedralGroup.sr 0, DihedralGroup.sr 1], 1⟩ :
          TransformLineageMonad (DihedralGroup 3)) true =
        (.ok ⟨⟨DihedralGroup.r 1, 1⟩, DihedralGroup.r 2,
          [DihedralGroup.sr 0, DihedralGroup.sr 1], 1⟩, false) :=
  scoped_stack_depth
    (show applyList (scopeEnter (create ⟨DihedralGroup.sr 0, 0⟩))
        [fun _ => OpResult.bare ⟨DihedralGroup.r 1, 1⟩] =
      Except.ok ⟨⟨DihedralGroup.r 1, 1⟩, DihedralGroup.r 2,
        [DihedralGroup.sr 0, DihedralGroup.sr 1], 1⟩ by rfl)

/-- Claim C4: Explicit-override precedence: when the operation returns a
`ResultWithDelta` carrying an explicit (truthy, i.e. actual-matrix) delta
`d`, the delta pushed onto `transformation_stack` is `d` itself, regardless
of the replacement solid `s` — in particular of its reported frame
`s.origin`, which is quantified over freely and may be inconsistent with
`d`. -/
theorem explicit_override_precedence {t : TransformLineageMonad G}
    {f : Solid G → OpResult G} {s : Solid G} {d : G} {aux : List (PyVal G)}
    (h : f t.solid = .withDelta s (some d) aux) :
    apply_mutably t f =
      .ok (⟨s, multmatrix t.combined_origin d,
        t.transformation_stack ++ [d], t.checkpoint⟩, .many aux) := by
  unfold apply_mutably
  rw [h]
  rfl

/-- Witness for C4 over `DihedralGroup 3`: the explicit delta `r 1` is
recorded even though the replacement solid reports the frame `sr 2`, which is
inconsistent with it (the frame-inferred delta would have been `sr 2`). -/
theorem explicit_override_precedence_witness :
    apply_mutably (create (⟨DihedralGroup.r 0, 0⟩ : Solid (DihedralGroup 3)))
        (fun _ => OpResult.withDelta ⟨DihedralGroup.sr 2, 9⟩
          (some (DihedralGroup.r 1)) [PyVal.otherV 3]) =
      .ok (⟨⟨DihedralGroup.sr 2, 9⟩, DihedralGroup.r 1,
          [DihedralGroup.r 0, DihedralGroup.r 1], 1⟩,
        .many [PyVal.otherV 3]) :=
  explicit_override_precedence
    (t := create (⟨DihedralGroup.r 0, 0⟩ : Solid (DihedralGroup 3)))
    (f := fun _ => OpResult.withDelta ⟨DihedralGroup.sr 2, 9⟩
      (some (DihedralGroup.r 1)) [PyVal.otherV 3]) rfl

/-- Claim C6: `undo_mutably` on a tracker with a non-empty stack (written
`l ++ [d]`, so `d` is the most recent delta) pops `d`, sets
`combined_origin` to `divmatrix(combined_origin, d)` — composition with the
inverse of `d` — and replaces the solid by `solid.divmatrix(d)`, whose frame
is the inverse of `d` composed with the solid's frame: the inverse transform
is applied to the actual solid, not just the bookkeeping. -/
theorem undo_pops_and_inverts {t : TransformLineageMonad G} {l : List G}
    {d : G} (h : t.transformation_stack = l ++ [d]) :
    undo_mutably t =
      .ok ⟨t.solid.divmatrix d, divmatrix t.combined_origin d, l,
        t.checkpoint⟩
    ∧ divmatrix t.combined_origin d = d⁻¹ * t.combined_origin
    ∧ (t.solid.divmatrix d).origin = d⁻¹ * t.solid.origin :=
  ⟨undo_mutably_concat t l d h, rfl, rfl⟩

/-- Witness for C6 over `DihedralGroup 3` at a concrete two-entry stack. -/
theorem undo_pops_and_inverts_witness :
    undo_mutably
        (⟨⟨DihedralGroup.r 1, 1⟩, DihedralGroup.r 2,
            [DihedralGroup.sr 0, DihedralGroup.sr 1], 1⟩ :
          TransformLineageMonad (DihedralGroup 3)) =
      .ok ⟨Solid.divmatrix ⟨DihedralGroup.r 1, 1⟩ (DihedralGroup.sr 1),
        divmatrix (DihedralGroup.r 2) (DihedralGroup.sr 1),
        [DihedralGroup.sr 0], 1⟩
    ∧ divmatrix (DihedralGroup.r 2) (DihedralGroup.sr 1) =
        ((DihedralGroup.sr 1)⁻¹ * DihedralGroup.r 2 : DihedralGroup 3)
    ∧ (Solid.divmatrix (⟨DihedralGroup.r 1, 1⟩ : Solid (DihedralGroup 3))
          (DihedralGroup.sr 1)).origin =
        ((DihedralGroup.sr 1)⁻¹ * DihedralGroup.r 1 : DihedralGroup 3) :=
  undo_pops_and_inverts (l := [DihedralGroup.sr 0])
    (d := DihedralGroup.sr 1) rfl

/-- Claim C7 (code bug): Bundle-result auxiliary passthrough: evaluated at an
operation returning the sequence `[solid, 7]`, `apply_mutably` returns the
*entire* sequence — including the leading solid — as the auxiliary results
(`return self, post_transform` with `post_transform` unmodified in the
sequence branch), not the remaining elements `[7]` promised by both the
specification and the function's own docstring ("The rest of the elements
will be returned as a pass-tthru"). -/
theorem bundle_aux_includes_first :
    apply_mutably (create (⟨DihedralGroup.r 0, 0⟩ : Solid (DihedralGroup 3)))
        (fun _ => OpResult.seqR [.solidV ⟨DihedralGroup.r 1, 1⟩, .otherV 7]) =
      .ok (⟨⟨DihedralGroup.r 1, 1⟩, DihedralGroup.r 1,
          [DihedralGroup.r 0, DihedralGroup.r 1], 1⟩,
        .many [.solidV ⟨DihedralGroup.r 1, 1⟩, .otherV 7])
    ∧ (AuxOut.many [.solidV ⟨DihedralGroup.r 1, 1⟩, .otherV 7] :
          AuxOut (DihedralGroup 3)) ≠
        .many [.otherV 7] :=
  ⟨rfl, by decide⟩

/-- Claim C8: Invalid-result rejection: when the operation's return value
matches none of the three recognised shapes — an empty sequence, a
non-subscriptable value, or a sequence whose first element is not a solid —
`apply_mutably` fails with the invalid-operation-result error before
reaching the mutation of the tracker (the error value carries no mutated
tracker; in the source the exception is raised before lines 113-115
execute). -/
theorem invalid_result_rejection {t : TransformLineageMonad G}
    {f : Solid G → OpResult G}
    (h : f t.solid = .seqR [] ∨ (∃ k, f t.solid = OpResult.nonSeq k) ∨
      ∃ m rest, f t.solid = .seqR (.otherV m :: rest)) :
    apply_mutably t f = .error .invalidOpResult := by
  rcases h with h | ⟨k, h⟩ | ⟨m, rest, h⟩ <;>
    (unfold apply_mutably; rw [h])

/-- Witness for C8: an operation returning a non-subscriptable value. -/
theorem invalid_result_rejection_witness :
    apply_mutably (create (⟨DihedralGroup.r 0, 0⟩ : Solid (DihedralGroup 3)))
        (fun _ => OpResult.nonSeq 5) = .error .invalidOpResult :=
  invalid_result_rejection (Or.inr (Or.inl ⟨5, rfl⟩))

/-- Counterexample refuting the scoped-unwind half of C9: on a tracker whose
recorded checkpoint (2) exceeds its stack length (0), a normal scoped exit
does *not* fail with the empty-lineage error — the unwind count
`len(transformation_stack) - __checkpoint` is negative, `range` of a
negative number is empty, so the exit pops nothing and returns the tracker
unchanged with `True`. -/
theorem scoped_underflow_no_error :
    scopeExit (⟨⟨DihedralGroup.r 1, 1⟩, DihedralGroup.r 2, [], 2⟩ :
        TransformLineageMonad (DihedralGroup 3)) false =
      (.ok ⟨⟨DihedralGroup.r 1, 1⟩, DihedralGroup.r 2, [], 2⟩, true) := rfl

/-- Claim C9 (amended): Underflow behaviour: `undo_mutably` on a tracker with
an empty stack fails with the empty-lineage error (the tracker is not
mutated: in the source the guard raises before the pop); the scoped exit,
however, never underflows — whenever the recorded checkpoint exceeds the
current stack length it pops nothing and returns the tracker unchanged,
normally, rather than failing. -/
theorem empty_lineage_underflow (t : TransformLineageMonad G) :
    (t.transformation_stack = [] → undo_mutably t = .error .emptyLineage)
    ∧ (t.transformation_stack.length < t.checkpoint →
        scopeExit t false = (.ok t, true)) := by
  constructor
  · intro h
    unfold undo_mutably
    rw [h]
    rfl
  · intro h
    have hc : t.transformation_stack.length - t.checkpoint = 0 := by omega
    have he : scopeExit t false =
        (undoN t (t.transformation_stack.length - t.checkpoint), true) := rfl
    rw [he, hc]
    rfl

/-- Witness for C9 (amended) at an empty-stack tracker whose checkpoint
is 2. -/
theorem empty_lineage_underflow_witness :
    undo_mutably (⟨⟨DihedralGroup.r 0, 0⟩, DihedralGroup.r 0, [], 2⟩ :
        TransformLineageMonad (DihedralGroup 3)) = .error .emptyLineage
    ∧ scopeExit (⟨⟨DihedralGroup.r 0, 0⟩, DihedralGroup.r 0, [], 2⟩ :
          TransformLineageMonad (DihedralGroup 3)) false =
        (.ok ⟨⟨DihedralGroup.r 0, 0⟩, DihedralGroup.r 0, [], 2⟩, true) :=
  ⟨(empty_lineage_underflow _).1 rfl,
    (empty_lineage_underflow _).2 (by decide)⟩

/-- Claim C10: Falsy-override fallback: when the operation returns a
`ResultWithDelta` whose `delta_transform_matrix` is a falsy value (the empty
list, modelled `none`), `apply_mutably` silently ignores the override and
records the frame-inferred delta
`divmatrix(replacement.origin, combined_origin)` instead — no error is
raised. -/
theorem falsy_override_fallback {t : TransformLineageMonad G}
    {f : Solid G → OpResult G} {s : Solid G} {aux : List (PyVal G)}
    (h : f t.solid = .withDelta s none aux) :
    apply_mutably t f =
      .ok (⟨s,
        multmatrix t.combined_origin (divmatrix s.origin t.combined_origin),
        t.transformation_stack ++ [divmatrix s.origin t.combined_origin],
        t.checkpoint⟩, .many aux) := by
  unfold apply_mutably
  rw [h]
  rfl

/-- Witness for C10 over `DihedralGroup 3`: a falsy override on a
replacement framed at `sr 2` records the inferred delta
`divmatrix(sr 2, r 0) = sr 2`. -/
theorem falsy_override_fallback_witness :
    apply_mutably (create (⟨DihedralGroup.r 0, 0⟩ : Solid (DihedralGroup 3)))
        (fun _ => OpResult.withDelta ⟨DihedralGroup.sr 2, 9⟩ none
          [PyVal.otherV 4]) =
      .ok (⟨⟨DihedralGroup.sr 2, 9⟩,
          multmatrix (DihedralGroup.r 0)
            (divmatrix (DihedralGroup.sr 2) (DihedralGroup.r 0)),
          [DihedralGroup.r 0,
            divmatrix (DihedralGroup.sr 2) (DihedralGroup.r 0)], 1⟩,
        .many [PyVal.otherV 4]) :=
  falsy_override_fallback
    (t := create (⟨DihedralGroup.r 0, 0⟩ : Solid (DihedralGroup 3)))
    (f := fun _ => OpResult.withDelta ⟨DihedralGroup.sr 2, 9⟩ none
      [PyVal.otherV 4]) rfl

/-- Claim C5 (code bug): Construction seeding, evaluated at the failing input
`TransformLineageMonad(solid)` with no explicit `combined_origin` /
`transformation_stack`: the dataclass defaults are
`field(default_factory = lambda : list)`, whose factory returns the builtin
`list` *class* — a truthy object — so neither falsy check in `__post_init__`
fires and the tracker is *not* seeded with the solid's frame, contradicting
the claim, the surrounding comments ("If not provided, init with identity
matrix") and the repository's own example usage.  The last two conjuncts
show the slip: on a genuinely empty list (what `default_factory = list`
would have produced) `__post_init__` does seed exactly as the claim
states. -/
theorem construction_seeding_bug :
    defaultedFields (⟨DihedralGroup.sr 1, 0⟩ : Solid (DihedralGroup 3)) =
      (.listClass, .listClass)
    ∧ defaultedFields (⟨DihedralGroup.sr 1, 0⟩ : Solid (DihedralGroup 3)) ≠
        (.mat (DihedralGroup.sr 1), .stackVal [DihedralGroup.sr 1])
    ∧ postInitCombined (⟨DihedralGroup.sr 1, 0⟩ : Solid (DihedralGroup 3))
        .emptyList = .mat (DihedralGroup.sr 1)
    ∧ postInitStack (⟨DihedralGroup.sr 1, 0⟩ : Solid (DihedralGroup 3))
        (.stackVal []) = .stackVal [DihedralGroup.sr 1] :=
  ⟨rfl, by decide, rfl, rfl⟩

end ZTools
